import Mathlib

/-!
Verification of the groot-dictionary view model (src/app/page.tsx).

The component's state and operations are shallowly embedded below:

* `FALLBACK_TRANSLATIONS`, `loadTranslations` — the Source Loader
  (`loadTranslations` in page.tsx, lines 46-76), with the possible fetch
  outcomes reified as the inductive `FetchOutcome`.
* `Entry`, `AppState`, `loadMoreStart`, `loadMoreComplete` — the Pagination
  Engine (`loadMoreEntries`, lines 102-135).  `loadMoreStart` is the
  synchronous guard + `setLoading(true)` part; `loadMoreComplete` is the body
  of the delayed callback (the code inside `setTimeout`).  React state
  updates are modelled as immediate state transitions; since the `loading`
  flag guards against a second in-flight batch, the values captured by the
  callback's closure (`currentPage`, `translations`, `entries.length`)
  coincide with the state at completion time, so `loadMoreComplete` reads
  them from the state.
* `filteredEntries` — the Filter View (lines 38-43), with JavaScript's
  `String.prototype.includes` embedded as `strContains`.
* `ThemeState`, `toggleDarkMode` — the dark-mode toggle (line 178-180)
  together with the persistence effect (lines 86-89) that writes the flag to
  storage on every change; the writes are recorded in `writeLog`.
* `Step` / `Reachable` — the event-driven execution model of section 5 of the
  design: any state may receive a `requestMore` trigger (`Step.start`, which
  covers both the initial-load effect and the intersection-observer signal),
  and a pending delayed batch (which exists exactly while `loading` is true)
  may complete (`Step.finish`).
-/

/-- Mirrors the `Translation` interface of page.tsx (`{ id: number, text: string }`). -/
structure Entry where
  id : Nat
  text : String
deriving DecidableEq, Repr, Inhabited

/-- The hardcoded `FALLBACK_TRANSLATIONS` array of page.tsx, lines 12-23. -/
def FALLBACK_TRANSLATIONS : List String :=
  [ "Zephyrian consciousness seeks temporal equilibrium.",
    "The quantum squirrel has appropriated my sustenance cube.",
    "Your bio-electromagnetic field experiences processing delays.",
    "Caffeine synthesis required for optimal neural function.",
    "Cosmic forces conspire against data transmission protocols.",
    "My photosynthetic companion evaluates my existence parameters.",
    "Territorial attachment to this spatial coordinate intensifies.",
    "The void acknowledges my presence with courteous reciprocity.",
    "Peak procrastination algorithms have been successfully executed.",
    "My textile foot coverings harbor trust-related anomalies." ]

/-- The possible outcomes of the `fetch`/parse pipeline in `loadTranslations`
(page.tsx lines 48-66), reified: the fetch rejects, `response.ok` is false,
the payload looks like HTML, `JSON.parse` throws, or parsing succeeds and the
`grootTranslations` field is either absent (`none`) or a list of strings. -/
inductive FetchOutcome where
  | fetchFailed
  | responseNotOk
  | htmlPayload
  | invalidJson
  | parsed (grootTranslations : Option (List String))
deriving DecidableEq, Repr

/-- The Source Loader `loadTranslations` of page.tsx (lines 46-76): every
`throw` lands in the `catch`, which substitutes `FALLBACK_TRANSLATIONS`;
`data.grootTranslations || []` is `Option.getD`, and an empty list also
throws.  The function is total: no error escapes to the consumer. -/
def loadTranslations (r : FetchOutcome) : List String :=
  match r with
  | .fetchFailed => FALLBACK_TRANSLATIONS
  | .responseNotOk => FALLBACK_TRANSLATIONS
  | .htmlPayload => FALLBACK_TRANSLATIONS
  | .invalidJson => FALLBACK_TRANSLATIONS
  | .parsed g =>
      let loadedTranslations := g.getD []
      if loadedTranslations.length == 0 then FALLBACK_TRANSLATIONS
      else loadedTranslations

/-- An outcome on which the loader falls back: any error branch, or a parsed
payload whose `grootTranslations` list is missing or empty. -/
def isLoadFailure : FetchOutcome → Bool
  | .parsed g => (g.getD []).length == 0
  | _ => true

/-- JavaScript's `String.prototype.includes`: `strContains s sub` is true iff
`sub` occurs in `s` as a contiguous substring (always true for `sub = ""`). -/
def strContains (s sub : String) : Bool :=
  (List.range (s.data.length + 1)).any (fun i => sub.data.isPrefixOf (s.data.drop i))

/-- JavaScript's `String.prototype.toLowerCase`, character by character. -/
def strToLower (s : String) : String :=
  ⟨s.data.map Char.toLower⟩

/-- JavaScript's `String.prototype.trim`: strip whitespace from both ends. -/
def strTrim (s : String) : String :=
  ⟨((s.data.dropWhile Char.isWhitespace).reverse.dropWhile Char.isWhitespace).reverse⟩

/-- The `filteredEntries` memo of page.tsx (lines 38-43): if the trimmed
search term is empty the entry list itself is returned; otherwise the list is
filtered by case-insensitive containment of the *untrimmed* term. -/
def filteredEntries (entries : List Entry) (searchTerm : String) : List Entry :=
  if strTrim searchTerm = "" then entries
  else entries.filter (fun entry => strContains (strToLower entry.text) (strToLower searchTerm))

/-- The component state relevant to pagination: the `entries`, `loading`,
`hasMore`, `currentPage` and `translations` `useState` hooks of page.tsx. -/
structure AppState where
  entries : List Entry
  loading : Bool
  hasMore : Bool
  currentPage : Nat
  translations : List String
deriving DecidableEq, Repr

/-- The state right after the translations load resolves: `entries = []`,
`loading = false`, `hasMore = true`, `currentPage = 0` (the `useState`
initial values, page.tsx lines 26-32). -/
def initState (translations : List String) : AppState :=
  { entries := [], loading := false, hasMore := true, currentPage := 0,
    translations := translations }

/-- One batch produced by the `for` loop of `loadMoreEntries` (page.tsx lines
110-122): 10 entries with `id = startIndex + i` and
`text = translations[(startIndex + i) % translations.length]`. -/
def batchOf (translations : List String) (startIndex : Nat) : List Entry :=
  (List.range 10).map (fun i =>
    { id := startIndex + i,
      text := translations.getD ((startIndex + i) % translations.length) "" })

/-- The synchronous part of `loadMoreEntries` (page.tsx lines 102-105): the
guard `if (loading || !hasMore || translations.length === 0) return` followed
by `setLoading(true)`. -/
def loadMoreStart (s : AppState) : AppState :=
  if s.loading || !s.hasMore || s.translations.length == 0 then s
  else { s with loading := true }

/-- The delayed body of `loadMoreEntries` (page.tsx lines 109-133): build the
batch, append it, increment `currentPage`, clear `loading`, and set `hasMore`
to false when `entries.length + newEntries.length >= translations.length * 20`. -/
def loadMoreComplete (s : AppState) : AppState :=
  let entriesPerPage := 10
  let startIndex := s.currentPage * entriesPerPage
  let newEntries := batchOf s.translations startIndex
  { s with
    entries := s.entries ++ newEntries,
    currentPage := s.currentPage + 1,
    loading := false,
    hasMore :=
      if s.entries.length + newEntries.length ≥ s.translations.length * 20
      then false else s.hasMore }

/-- The event-driven execution model: at any time a `requestMore` trigger may
arrive (initial-load effect or intersection observer; its guard makes it a
no-op when inappropriate), and while `loading` is true the pending
`setTimeout` callback may fire. -/
inductive Step : AppState → AppState → Prop where
  | start (s : AppState) : Step s (loadMoreStart s)
  | finish (s : AppState) : s.loading = true → Step s (loadMoreComplete s)

/-- States reachable from the post-load initial state by pagination events. -/
def Reachable (translations : List String) (s : AppState) : Prop :=
  Relation.ReflTransGen Step (initState translations) s

/-- The canonical entry log after `pages` completed batches: entries
`0 .. pages*10 - 1`, each with the cyclically indexed text. -/
def entryLog (translations : List String) (pages : Nat) : List Entry :=
  (List.range (pages * 10)).map (fun n =>
    { id := n, text := translations.getD (n % translations.length) "" })

/-- Dark-mode state: the `darkMode` flag plus the log of values written to
`localStorage` by the persistence effect (page.tsx lines 86-89), which runs
once per change of `darkMode`. -/
structure ThemeState where
  darkMode : Bool
  writeLog : List Bool
deriving DecidableEq, Repr

/-- `toggleDarkMode` (page.tsx lines 178-180) together with the persistence
effect it triggers: flip the flag and record the persisted write. -/
def toggleDarkMode (s : ThemeState) : ThemeState :=
  { darkMode := !s.darkMode, writeLog := s.writeLog ++ [!s.darkMode] }

/-- The pagination invariant maintained by every event: translations are
fixed, the entry log is exactly the canonical cyclic log for the current
page count, `hasMore` tracks `entries.length < 20 * |translations|`, a
pending batch implies `hasMore`, and the log never exceeds the cap. -/
def GoodState (ts : List String) (s : AppState) : Prop :=
  s.translations = ts ∧
  s.entries = entryLog ts s.currentPage ∧
  (s.hasMore = true ↔ s.entries.length < 20 * ts.length) ∧
  (s.loading = true → s.hasMore = true) ∧
  s.entries.length ≤ 20 * ts.length

/-! ### Basic lemmas about the embedded operations -/

theorem batchOf_length (ts : List String) (i : Nat) : (batchOf ts i).length = 10 := by
  simp [batchOf]

theorem entryLog_length (ts : List String) (p : Nat) :
    (entryLog ts p).length = p * 10 := by
  simp [entryLog]

theorem entryLog_succ (ts : List String) (p : Nat) :
    entryLog ts (p + 1) = entryLog ts p ++ batchOf ts (p * 10) := by
  unfold entryLog batchOf
  have h10 : (p + 1) * 10 = p * 10 + 10 := by ring
  rw [h10, List.range_add (p * 10) 10, List.map_append, List.map_map]
  rfl

theorem entryLog_getD (ts : List String) (p n : Nat) (h : n < p * 10) :
    (entryLog ts p).getD n ⟨0, ""⟩ = ⟨n, ts.getD (n % ts.length) ""⟩ := by
  have hlen : n < (entryLog ts p).length := by rw [entryLog_length]; exact h
  rw [List.getD_eq_getElem _ _ hlen]
  simp [entryLog]

theorem entryLog_map_id (ts : List String) (p : Nat) :
    (entryLog ts p).map Entry.id = List.range (p * 10) := by
  unfold entryLog
  rw [List.map_map]
  exact List.map_id' _

theorem entryLog_id_lt (ts : List String) (p : Nat) :
    ∀ e ∈ entryLog ts p, e.id < p * 10 := by
  intro e he
  simp only [entryLog, List.mem_map, List.mem_range] at he
  obtain ⟨n, hn, rfl⟩ := he
  exact hn

theorem batchOf_id_ge (ts : List String) (i : Nat) :
    ∀ e ∈ batchOf ts i, i ≤ e.id := by
  intro e he
  simp only [batchOf, List.mem_map, List.mem_range] at he
  obtain ⟨n, _, rfl⟩ := he
  exact Nat.le_add_right i n

theorem loadMoreComplete_entries (s : AppState) :
    (loadMoreComplete s).entries =
      s.entries ++ batchOf s.translations (s.currentPage * 10) := rfl

theorem loadMoreComplete_currentPage (s : AppState) :
    (loadMoreComplete s).currentPage = s.currentPage + 1 := rfl

theorem loadMoreComplete_loading (s : AppState) :
    (loadMoreComplete s).loading = false := rfl

theorem loadMoreComplete_translations (s : AppState) :
    (loadMoreComplete s).translations = s.translations := rfl

theorem loadMoreComplete_hasMore (s : AppState) :
    (loadMoreComplete s).hasMore =
      if s.entries.length + 10 ≥ s.translations.length * 20 then false
      else s.hasMore := by
  simp [loadMoreComplete, batchOf_length]

theorem loadMoreStart_of_loading (s : AppState) (h : s.loading = true) :
    loadMoreStart s = s := by
  unfold loadMoreStart
  rw [if_pos]
  simp [h]

theorem loadMoreStart_of_noMore (s : AppState) (h : s.hasMore = false) :
    loadMoreStart s = s := by
  unfold loadMoreStart
  rw [if_pos]
  simp [h]

theorem loadMoreStart_run (s : AppState) (h1 : s.loading = false)
    (h2 : s.hasMore = true) (h3 : s.translations ≠ []) :
    loadMoreStart s = { s with loading := true } := by
  unfold loadMoreStart
  rw [if_neg]
  simp [h1, h2, List.length_eq_zero, h3]

/-! ### The reachability invariant -/

theorem goodState_init (ts : List String) (h : ts ≠ []) :
    GoodState ts (initState ts) := by
  have hl : 0 < ts.length := List.length_pos.mpr h
  refine ⟨rfl, rfl, ?_, fun _ => rfl, ?_⟩
  · constructor
    · intro _
      show (0 : Nat) < 20 * ts.length
      omega
    · intro _
      rfl
  · show (0 : Nat) ≤ 20 * ts.length
    omega

theorem goodState_start (ts : List String) (s : AppState)
    (hg : GoodState ts s) : GoodState ts (loadMoreStart s) := by
  obtain ⟨h1, h2, h3, h4, h5⟩ := hg
  unfold loadMoreStart
  split
  · exact ⟨h1, h2, h3, h4, h5⟩
  · rename_i hguard
    have hmore : s.hasMore = true := by
      by_contra hne
      have hb : s.hasMore = false := by
        cases hx : s.hasMore
        · rfl
        · exact absurd hx hne
      exact hguard (by simp [hb])
    exact ⟨h1, h2, h3, fun _ => hmore, h5⟩

theorem goodState_finish (ts : List String) (s : AppState)
    (hg : GoodState ts s) (hl : s.loading = true) :
    GoodState ts (loadMoreComplete s) := by
  obtain ⟨h1, h2, h3, h4, h5⟩ := hg
  have hm : s.hasMore = true := h4 hl
  have hlt : s.entries.length < 20 * ts.length := h3.mp hm
  have hlen : s.entries.length = s.currentPage * 10 := by
    rw [h2, entryLog_length]
  have hlen' : (loadMoreComplete s).entries.length = s.entries.length + 10 := by
    rw [loadMoreComplete_entries, List.length_append, batchOf_length]
  refine ⟨loadMoreComplete_translations s ▸ h1, ?_, ?_, ?_, ?_⟩
  · rw [loadMoreComplete_entries, loadMoreComplete_currentPage, h2, h1,
      entryLog_succ]
  · rw [loadMoreComplete_hasMore, hlen', h1]
    split
    · rename_i hc
      simp only [Bool.false_eq_true, false_iff, not_lt]
      omega
    · rename_i hc
      simp only [not_le] at hc
      rw [hm]
      simp only [true_iff]
      omega
  · intro hfalse
    rw [loadMoreComplete_loading] at hfalse
    exact absurd hfalse (by simp)
  · rw [hlen']
    omega

theorem reachable_good (ts : List String) (s : AppState) (hts : ts ≠ [])
    (hr : Reachable ts s) : GoodState ts s := by
  induction hr with
  | refl => exact goodState_init ts hts
  | tail _ hstep ih =>
      cases hstep with
      | start => exact goodState_start ts _ ih
      | finish hl => exact goodState_finish ts _ ih hl

/-! ### Claim theorems -/

/-- C4: for every load outcome in the failure taxonomy (fetch rejection, bad
HTTP status, HTML payload, unparseable JSON, missing or empty translations
list) `loadTranslations` yields the fixed fallback list of exactly 10
strings; on every outcome whatsoever it yields a non-empty list, and being a
total function it never raises an error observable to its consumer. -/
theorem C4_loader_fallback_total :
    (∀ r : FetchOutcome, isLoadFailure r = true →
      loadTranslations r = FALLBACK_TRANSLATIONS) ∧
    FALLBACK_TRANSLATIONS.length = 10 ∧
    (∀ r : FetchOutcome, loadTranslations r ≠ []) := by
  refine ⟨?_, rfl, ?_⟩
  · intro r h
    cases r with
    | fetchFailed => rfl
    | responseNotOk => rfl
    | htmlPayload => rfl
    | invalidJson => rfl
    | parsed g =>
        cases g with
        | none => rfl
        | some l =>
            simp only [isLoadFailure, Option.getD_some, beq_iff_eq] at h
            simp [loadTranslations, h]
  · intro r
    cases r with
    | fetchFailed => decide
    | responseNotOk => decide
    | htmlPayload => decide
    | invalidJson => decide
    | parsed g =>
        cases g with
        | none => decide
        | some l =>
            simp only [loadTranslations, Option.getD_some]
            split
            · decide
            · rename_i hc
              intro he
              subst he
              exact hc rfl

/-- Witness for C4 at the concrete outcomes `fetchFailed` and
`parsed (some [])`. -/
theorem C4_witness :
    loadTranslations FetchOutcome.fetchFailed = FALLBACK_TRANSLATIONS ∧
    loadTranslations (FetchOutcome.parsed (some [])) = FALLBACK_TRANSLATIONS ∧
    loadTranslations FetchOutcome.fetchFailed ≠ [] :=
  ⟨C4_loader_fallback_total.1 FetchOutcome.fetchFailed rfl,
   C4_loader_fallback_total.1 (FetchOutcome.parsed (some [])) rfl,
   C4_loader_fallback_total.2.2 FetchOutcome.fetchFailed⟩

/-- C5 counterexample: the claim quantifies over every non-empty search term,
but for the non-empty term `" "` the code's trim-only-for-emptiness check
returns the whole log, so an entry whose lowercased text does not contain the
lowercased term appears in the filtered view. -/
theorem C5_counterexample :
    (" " : String) ≠ "" ∧
    filteredEntries [⟨0, "abc"⟩] " " = [⟨0, "abc"⟩] ∧
    strContains (strToLower ((⟨0, "abc"⟩ : Entry).text)) (strToLower " ") = false := by
  decide

/-- C5 (amended): for every entry log and every search term whose *trimmed*
form is non-empty, the filtered view contains exactly those entries whose
lowercased text contains the lowercased (untrimmed) term; with the fallback
data and term "quantum", exactly the "quantum squirrel" entry appears, once
per cyclic repetition. -/
theorem C5_filter_exact (entries : List Entry) (term : String)
    (h : strTrim term ≠ "") :
    (∀ e, e ∈ filteredEntries entries term ↔
      (e ∈ entries ∧ strContains (strToLower e.text) (strToLower term) = true)) ∧
    filteredEntries (entryLog FALLBACK_TRANSLATIONS 2) "quantum" =
      [⟨1, FALLBACK_TRANSLATIONS.getD 1 ""⟩, ⟨11, FALLBACK_TRANSLATIONS.getD 1 ""⟩] := by
  constructor
  · intro e
    unfold filteredEntries
    rw [if_neg h]
    simp [List.mem_filter]
  · decide

/-- Witness for C5 (amended) at a concrete log and the mixed-case term "AB". -/
theorem C5_witness :
    (⟨0, "abc"⟩ : Entry) ∈ filteredEntries [⟨0, "abc"⟩] "AB" ↔
      ((⟨0, "abc"⟩ : Entry) ∈ ([⟨0, "abc"⟩] : List Entry) ∧
        strContains (strToLower ((⟨0, "abc"⟩ : Entry).text)) (strToLower "AB") = true) :=
  (C5_filter_exact [⟨0, "abc"⟩] "AB" (by decide)).1 ⟨0, "abc"⟩

/-- C6: filtering with the empty search term returns the entry log itself,
unchanged and in the same order (definitional identity). -/
theorem C6_empty_term_identity (entries : List Entry) :
    filteredEntries entries "" = entries := rfl

/-- C8: toggling the theme twice returns the dark-mode flag to its original
value, and the persistence effect records exactly one write differing from
the original value followed by one write restoring it. -/
theorem C8_toggle_twice (s : ThemeState) :
    (toggleDarkMode (toggleDarkMode s)).darkMode = s.darkMode ∧
    (toggleDarkMode (toggleDarkMode s)).writeLog =
      s.writeLog ++ [!s.darkMode, s.darkMode] ∧
    (!s.darkMode) ≠ s.darkMode := by
  refine ⟨?_, ?_, Bool.not_ne_self s.darkMode⟩
  · simp [toggleDarkMode]
  · simp [toggleDarkMode]

/-- C9: a non-empty but all-whitespace search term is trimmed to empty by the
emptiness check and returns the whole entry log; for a term with visible
content, matching uses the raw untrimmed term, so the term `" quantum"` fails
to match the text `"quantum"` (the leading space must occur literally). -/
theorem C9_whitespace_term (entries : List Entry) (term : String) :
    (term ≠ "" → strTrim term = "" → filteredEntries entries term = entries) ∧
    (strTrim term ≠ "" →
      filteredEntries entries term =
        entries.filter (fun e => strContains (strToLower e.text) (strToLower term))) ∧
    filteredEntries [⟨0, "quantum"⟩] " quantum" = [] := by
  refine ⟨fun _ h2 => ?_, fun h => ?_, by decide⟩
  · unfold filteredEntries
    rw [if_pos h2]
  · unfold filteredEntries
    rw [if_neg h]

/-- Witness for C9 at a concrete log with the all-whitespace term `" "` and
the ordinary term `"b"`. -/
theorem C9_witness :
    filteredEntries [⟨0, "abc"⟩] " " = [⟨0, "abc"⟩] ∧
    filteredEntries [⟨0, "abc"⟩] "b" =
      List.filter (fun e => strContains (strToLower (Entry.text e)) (strToLower "b"))
        [⟨0, "abc"⟩] :=
  ⟨(C9_whitespace_term [⟨0, "abc"⟩] " ").1 (by decide) (by decide),
   (C9_whitespace_term [⟨0, "abc"⟩] "b").2.1 (by decide)⟩

/-- C1: in every reachable state the n-th entry ever appended (0-indexed) has
id n and text `SourceList[n mod len(SourceList)]`; and whenever a
`requestMore` is admitted (not loading, continuation on), its completion
appends exactly one batch of 10 consecutive such entries. -/
theorem C1_entry_log_cyclic (ts : List String) (s : AppState)
    (hts : ts ≠ []) (hr : Reachable ts s) :
    (∀ n, n < s.entries.length →
      s.entries.getD n ⟨0, ""⟩ = ⟨n, ts.getD (n % ts.length) ""⟩) ∧
    (s.loading = false → s.hasMore = true →
      ((loadMoreComplete (loadMoreStart s)).entries =
        s.entries ++ batchOf ts (s.currentPage * 10) ∧
      (batchOf ts (s.currentPage * 10)).length = 10)) := by
  obtain ⟨h1, h2, h3, h4, h5⟩ := reachable_good ts s hts hr
  constructor
  · intro n hn
    rw [h2] at hn ⊢
    rw [entryLog_length] at hn
    exact entryLog_getD ts s.currentPage n hn
  · intro hld hhm
    have hts2 : s.translations ≠ [] := by rw [h1]; exact hts
    rw [loadMoreStart_run s hld hhm hts2]
    refine ⟨?_, batchOf_length ts _⟩
    rw [loadMoreComplete_entries]
    show s.entries ++ batchOf s.translations (s.currentPage * 10) =
      s.entries ++ batchOf ts (s.currentPage * 10)
    rw [h1]

/-- Witness for C1: after one completed batch over the fallback list, the
entry at position 3 has id 3 and the cyclically indexed text. -/
theorem C1_witness :
    (loadMoreComplete (loadMoreStart (initState FALLBACK_TRANSLATIONS))).entries.getD 3
        ⟨0, ""⟩ =
      ⟨3, FALLBACK_TRANSLATIONS.getD (3 % FALLBACK_TRANSLATIONS.length) ""⟩ :=
  (C1_entry_log_cyclic FALLBACK_TRANSLATIONS
    (loadMoreComplete (loadMoreStart (initState FALLBACK_TRANSLATIONS)))
    (by decide)
    (Relation.ReflTransGen.tail
      (Relation.ReflTransGen.tail Relation.ReflTransGen.refl (Step.start _))
      (Step.finish _ (by decide)))).1 3 (by decide)

/-- C2: `loadMoreEntries` is a no-op while the loading flag is set; two
back-to-back invocations issued before the delayed batch completes append
exactly one batch of 10 entries, never two. -/
theorem C2_loading_guard (s : AppState) :
    (s.loading = true → loadMoreStart s = s) ∧
    (s.loading = false → s.hasMore = true → s.translations ≠ [] →
      (loadMoreStart (loadMoreStart s) = loadMoreStart s ∧
        (loadMoreComplete (loadMoreStart (loadMoreStart s))).entries.length =
          s.entries.length + 10)) := by
  refine ⟨loadMoreStart_of_loading s, ?_⟩
  intro h1 h2 h3
  have hrun : loadMoreStart s = { s with loading := true } :=
    loadMoreStart_run s h1 h2 h3
  constructor
  · rw [hrun]
    exact loadMoreStart_of_loading _ rfl
  · rw [hrun, loadMoreStart_of_loading { s with loading := true } rfl,
      loadMoreComplete_entries, List.length_append, batchOf_length]

/-- Witness for C2: from the post-load state over a one-string source, the
second back-to-back invocation is dropped and completion appends 10 entries. -/
theorem C2_witness :
    loadMoreStart (loadMoreStart (initState ["a"])) = loadMoreStart (initState ["a"]) ∧
    (loadMoreComplete (loadMoreStart (loadMoreStart (initState ["a"])))).entries.length =
      (initState ["a"]).entries.length + 10 :=
  (C2_loading_guard (initState ["a"])).2 rfl rfl (by decide)

/-- C3: in every reachable state the continuation flag is true exactly while
the log is shorter than `20 × len(SourceList)` (so it turns false precisely
when the log first reaches the cap, which it never exceeds), and once it is
false every further event — `requestMore` trigger or batch completion — leaves
the state unchanged, so no further entries are ever appended. -/
theorem C3_continuation_cap (ts : List String) (s : AppState)
    (hts : ts ≠ []) (hr : Reachable ts s) :
    (s.hasMore = true ↔ s.entries.length < 20 * ts.length) ∧
    s.entries.length ≤ 20 * ts.length ∧
    (s.hasMore = false → ∀ s2, Step s s2 → s2 = s) := by
  obtain ⟨h1, h2, h3, h4, h5⟩ := reachable_good ts s hts hr
  refine ⟨h3, h5, ?_⟩
  intro hf s2 hstep
  cases hstep with
  | start => exact loadMoreStart_of_noMore s hf
  | finish hl => exact absurd (h4 hl) (by simp [hf])

/-- Witness for C3 at the post-load state over a one-string source. -/
theorem C3_witness :
    ((initState ["a"]).hasMore = true ↔
      (initState ["a"]).entries.length < 20 * (["a"] : List String).length) ∧
    (initState ["a"]).entries.length ≤ 20 * (["a"] : List String).length :=
  ⟨(C3_continuation_cap ["a"] (initState ["a"]) (by decide)
      Relation.ReflTransGen.refl).1,
   (C3_continuation_cap ["a"] (initState ["a"]) (by decide)
      Relation.ReflTransGen.refl).2.1⟩

/-- C7: in every reachable state the entry ids are exactly
`0 .. len(EntryLog)-1` in log order — strictly increasing, no gaps, no
duplicates. -/
theorem C7_ids_exact_range (ts : List String) (s : AppState)
    (hts : ts ≠ []) (hr : Reachable ts s) :
    s.entries.map Entry.id = List.range s.entries.length := by
  obtain ⟨-, h2, -, -, -⟩ := reachable_good ts s hts hr
  rw [h2, entryLog_map_id, entryLog_length]

/-- Witness for C7 after one completed batch over a two-string source. -/
theorem C7_witness :
    (loadMoreComplete (loadMoreStart (initState ["x", "y"]))).entries.map Entry.id =
      List.range (loadMoreComplete (loadMoreStart (initState ["x", "y"]))).entries.length :=
  C7_ids_exact_range ["x", "y"] _ (by decide)
    (Relation.ReflTransGen.tail
      (Relation.ReflTransGen.tail Relation.ReflTransGen.refl (Step.start _))
      (Step.finish _ (by decide)))

/-- C10: in every reachable state the log length is `10 × currentPage` (each
completed batch increments the page counter by one), every existing id is
below `currentPage × 10`, and the ids of the batch that would start at
`currentPage × 10` collide with no existing id. -/
theorem C10_page_length_fresh_ids (ts : List String) (s : AppState)
    (hts : ts ≠ []) (hr : Reachable ts s) :
    s.entries.length = 10 * s.currentPage ∧
    (∀ e ∈ s.entries, e.id < s.currentPage * 10) ∧
    (∀ e ∈ batchOf s.translations (s.currentPage * 10),
      ∀ e2 ∈ s.entries, e.id ≠ e2.id) := by
  obtain ⟨h1, h2, -, -, -⟩ := reachable_good ts s hts hr
  have hlen : s.entries.length = 10 * s.currentPage := by
    rw [h2, entryLog_length]
    ring
  have hlt : ∀ e ∈ s.entries, e.id < s.currentPage * 10 := by
    intro e he
    rw [h2] at he
    exact entryLog_id_lt ts s.currentPage e he
  refine ⟨hlen, hlt, ?_⟩
  intro e he e2 he2
  have hge : s.currentPage * 10 ≤ e.id := batchOf_id_ge _ _ e he
  have hlt2 := hlt e2 he2
  omega

/-- Witness for C10 after one completed batch over a three-string source. -/
theorem C10_witness :
    (loadMoreComplete (loadMoreStart (initState ["a", "b", "c"]))).entries.length =
      10 * (loadMoreComplete (loadMoreStart (initState ["a", "b", "c"]))).currentPage :=
  (C10_page_length_fresh_ids ["a", "b", "c"] _ (by decide)
    (Relation.ReflTransGen.tail
      (Relation.ReflTransGen.tail Relation.ReflTransGen.refl (Step.start _))
      (Step.finish _ (by decide)))).1
